import Mathlib

/-!
Verification of the valve price-validation pipeline (matching-and-pricing
engine): a shallow embedding of the TypeScript services (`dataLoader.ts`,
`stepA.ts`, `stepB.ts`, `stepC.ts`, `utils/helpers.ts`) together with
theorems settling the specification claims about them.

Modelling conventions:
* JavaScript numbers are embedded as `ℚ` (all the claims are about exact
  arithmetic and comparisons, which the float program performs on values
  where these coincide); `Math.round x` is `⌊x + 1/2⌋` (JS rounds half
  toward +∞).
* Strings are Lean `String`s; `split(/\s+/)` on a trimmed string is
  whitespace-splitting with empty tokens dropped (on the empty string the
  JS call yields `[""]`, which contains no marker token and no digits, so
  the two readings agree everywhere they are used).
* Order dates (`발주일`) are embedded as `Int` timestamps, abstracting
  `new Date(s).getTime()`; only their ordering is used by the code under
  verification.  Display-only string fields (`차이`, `원인`, formatted
  dates and percentage strings) are omitted from result records; no claim
  mentions them.
* JS `Map` and plain-object dictionaries are embedded as insertion-ordered
  association lists with first-match lookup and update-in-place set, which
  is exactly the observable behaviour of `Map.get`/`obj[k] = v`.
-/

namespace ValveValid

/-- JS `Math.round`: round half toward +∞. -/
def jsRound (q : ℚ) : ℤ := ⌊q + 1/2⌋

/-- `Math.round` followed by the implicit reuse as a number. -/
def roundQ (q : ℚ) : ℚ := (jsRound q : ℚ)

/-- Helper for `splitWs`: split a character list at whitespace, dropping
empty tokens; the accumulator holds the reversed token being read. -/
def wsTokens : List Char → List Char → List (List Char)
  | acc, [] => if acc.isEmpty then [] else [acc.reverse]
  | acc, c :: rest =>
    if c.isWhitespace then
      if acc.isEmpty then wsTokens [] rest else acc.reverse :: wsTokens [] rest
    else wsTokens (c :: acc) rest

/-- `descStr.trim().split(/\s+/)`: whitespace tokens of a string.
JS regex splitting of a trimmed non-empty string never produces empty
tokens; we drop them uniformly (see the module comment for `""`). -/
def splitWs (s : String) : List String :=
  (wsTokens [] s.toList).map String.mk

/-- JS `toUpperCase` restricted to the ASCII letters actually compared. -/
def toUpperStr (s : String) : String :=
  String.mk (s.toList.map Char.toUpper)

/-- JS `trim()`: strip leading and trailing whitespace. -/
def trimStr (s : String) : String :=
  String.mk
    (((s.toList.dropWhile Char.isWhitespace).reverse.dropWhile
      Char.isWhitespace).reverse)

/-- `desc.replace(/\s+/g, ' ').trim()`: collapse whitespace runs. -/
def normSpace (s : String) : String := String.intercalate " " (splitWs s)

/-- Character-list version of "starts with". -/
def hasLead : List Char → List Char → Bool
  | [], _ => true
  | _ :: _, [] => false
  | a :: as, b :: bs => a == b && hasLead as bs

/-- Character-list version of "occurs somewhere inside". -/
def occursIn : List Char → List Char → Bool
  | pat, [] => pat.isEmpty
  | pat, c :: rest => hasLead pat (c :: rest) || occursIn pat rest

/-- JS `s.includes(pat)`. -/
def containsS (s pat : String) : Bool := occursIn pat.toList s.toList

/-! ### The price-table row (`PriceTableRow`, dataLoader.ts)

Field names are romanised: `밸브타입 ↦ valveType`, `수량 ↦ qty`,
`BODY2-변환 ↦ body2`, `바디단가-변환 ↦ bodyUnit`, `업체명 ↦ vendor`,
`N/P-변환 ↦ np`, `O-P-변환 ↦ op`, `I-P-변환 ↦ ip`, `LOCK-변환 ↦ lock`,
`IND-변환 ↦ ind`, `L/SW-변환 ↦ lsw`, `EXT-변환 ↦ ext`,
`DISC-SCS13/14/16-변환 ↦ disc13/disc14/disc16`. -/
structure PriceRow where
  valveType : String
  qty : ℚ
  body2 : ℚ
  bodyUnit : ℚ
  vendor : String
  np : ℚ
  op : ℚ
  ip : ℚ
  lock : ℚ
  ind : ℚ
  lsw : ℚ
  ext : ℚ
  disc13 : ℚ
  disc14 : ℚ
  disc16 : ℚ
  deriving DecidableEq, Repr

/-! ### Option parser (`utils/helpers.ts`) -/

/-- One marker attempt inside `parseOptionsFromDesc`: JS
`idx = parts.indexOf(marker); if (idx !== -1 && idx < parts.length - 1)
return parts.slice(idx + 1)`. -/
def tryMarker (parts : List String) (m : String) : Option (List String) :=
  match parts.findIdx? (· == m) with
  | some i => if i + 1 < parts.length then some (parts.drop (i + 1)) else none
  | none => none

/-- `parseOptionsFromDesc(descStr)` (helpers.ts lines 4–15): split on
whitespace, try the markers `TR`, `T`, `LR` in that order, returning the
tokens after the first marker found at a non-final position. -/
def parseOptionsFromDesc (descStr : String) : List String :=
  let parts := splitWs descStr
  match tryMarker parts "TR" with
  | some r => r
  | none =>
    match tryMarker parts "T" with
    | some r => r
    | none =>
      match tryMarker parts "LR" with
      | some r => r
      | none => []

/-! ### The option-price breakdown dictionary

`detail` in `calcOptionPrice` is a JS object used as a label → amount map;
we embed it as an insertion-ordered association list. -/

/-- Label → amount breakdown. -/
abbrev DetailMap := List (String × ℚ)

/-- Sum of the amounts recorded in a breakdown. -/
def sumD (d : DetailMap) : ℚ := (d.map (fun p => p.2)).sum

/-- JS truthiness of `detail[k]`: the key is present with a non-zero
amount. -/
def hasTruthy (d : DetailMap) (k : String) : Bool :=
  match d.find? (fun p => p.1 == k) with
  | some p => p.2 != 0
  | none => false

/-- JS `detail[k] = v`: update the (first) entry with key `k`, appending a
fresh entry if absent. -/
def setD : DetailMap → String → ℚ → DetailMap
  | [], k, v => [(k, v)]
  | e :: rest, k, v =>
    if e.1 == k then (e.1, v) :: rest else e :: setD rest k v

/-- The recurring pattern `if (cond) { total += v; detail[label] = v; }`. -/
def addIf (cond : Bool) (label : String) (v : ℚ) (st : ℚ × DetailMap) :
    ℚ × DetailMap :=
  if cond then (st.1 + v, setD st.2 label v) else st

/-- The `kwMap` object literal of helpers.ts (lines 56–67): option
keyword → price-table column. -/
def kwMap : List (String × (PriceRow → ℚ)) :=
  [("LOCK", fun r => r.lock),
   ("IND", fun r => r.ind),
   ("L/SW", fun r => r.lsw),
   ("EXT", fun r => r.ext),
   ("S-EXT", fun r => r.ext),
   ("H/R-B", fun r => r.ext),
   ("ST-W", fun r => r.ext),
   ("RED-P", fun r => r.ext),
   ("1-L/S", fun r => r.lsw),
   ("W/SFT", fun r => r.ext)]

/-- `kwMap[ou]` with JS object-key lookup. -/
def kwLookup (ou : String) : Option (PriceRow → ℚ) :=
  (kwMap.find? (fun e => e.1 == ou)).map (fun e => e.2)

/-- One iteration of the `for (const opt of descOptions)` loop of
`calcOptionPrice` (helpers.ts lines 69–108). -/
def optStep (row : PriceRow) (st : ℚ × DetailMap) (opt : String) :
    ℚ × DetailMap :=
  let ou := trimStr (toUpperStr opt)
  if ou = "I-T" ∨ ou = "I/O-T" then
    addIf (decide (0 < row.ip) && !hasTruthy st.2 "I-P(내부도장)" &&
      !hasTruthy st.2 "I-P(자재내역)") "I-P(자재내역)" row.ip st
  else if ou = "I/O-P" then
    let st1 := addIf (decide (0 < row.ip) && !hasTruthy st.2 "I-P(내부도장)")
      "I-P(I/O-P)" row.ip st
    addIf (decide (0 < row.op) && !hasTruthy st1.2 "O-P(외부도장)")
      "O-P(I/O-P)" row.op st1
  else if ou = "O-P" then
    addIf (decide (0 < row.op) && !hasTruthy st.2 "O-P(외부도장)")
      "O-P(자재내역)" row.op st
  else
    match kwLookup ou with
    | some f => addIf (decide (0 < f row)) ou (f row) st
    | none =>
      if ou = "RUB-C" then
        addIf (decide (0 < row.disc16)) "RUB-C" row.disc16 st
      else st

/-- The `specMap` object literal of helpers.ts (lines 113–119), with the
display label (`col.replace('-변환', '')`) resolved alongside the
column. -/
def specMap : List (String × String × (PriceRow → ℚ)) :=
  [("SUS316", "DISC-SCS16", fun r => r.disc16),
   ("SCS16", "DISC-SCS16", fun r => r.disc16),
   ("SUS304", "DISC-SCS13", fun r => r.disc13),
   ("SCS13", "DISC-SCS13", fun r => r.disc13),
   ("SCS14", "DISC-SCS14", fun r => r.disc14)]

/-- The `Object.entries(specMap)` scan of helpers.ts (lines 121–131): the
first keyword contained in the upper-cased detail spec, with its label
and column. -/
def specFind (su : String) : Option (String × (PriceRow → ℚ)) :=
  (specMap.find? (fun e => containsS su e.1)).map (fun e => e.2)

/-- The nameplate block of `calcOptionPrice` (helpers.ts lines 29–33). -/
def npPhase (row : PriceRow) (st : ℚ × DetailMap) : ℚ × DetailMap :=
  addIf (decide (0 < row.np)) "N/P" row.np st

/-- The outer-coating paint-code block (helpers.ts lines 36–43): JS
`ep && !['N0','NO','','NAN','NONE'].includes(ep)` (the truthiness test is
the first conjunct). -/
def extPaintPhase (row : PriceRow) (extPaint : String) (st : ℚ × DetailMap) :
    ℚ × DetailMap :=
  let ep := trimStr (toUpperStr extPaint)
  if ep ≠ "" ∧ ep ∉ ["N0", "NO", "", "NAN", "NONE"] then
    addIf (decide (0 < row.op)) "O-P(외부도장)" row.op st
  else st

/-- The inner-coating paint-code block (helpers.ts lines 46–53). -/
def intPaintPhase (row : PriceRow) (intPaint : String) (st : ℚ × DetailMap) :
    ℚ × DetailMap :=
  let ipc := trimStr (toUpperStr intPaint)
  if ipc ≠ "" ∧ ipc ∉ ["N0", "NO", "", "NAN", "NONE"] then
    addIf (decide (0 < row.ip)) "I-P(내부도장)" row.ip st
  else st

/-- The detail-spec block (helpers.ts lines 111–132); the JS loop breaks
at the first contained keyword whether or not a price is added. -/
def specPhase (row : PriceRow) (detailSpec : String) (st : ℚ × DetailMap) :
    ℚ × DetailMap :=
  if detailSpec ≠ "" then
    match specFind (toUpperStr detailSpec) with
    | some (label, f) =>
      addIf (decide (0 < f row) && !hasTruthy st.2 label) label (f row) st
    | none => st
  else st

/-- `calcOptionPrice(priceRow, descOptions, intPaint, extPaint, detailSpec)`
(helpers.ts lines 18–135): nameplate, paint-code coatings, description
option tokens and detail-spec disc material — in the source's order —
returning the total and the label → amount breakdown. -/
def calcOptionPrice (row : PriceRow) (descOptions : List String)
    (intPaint extPaint detailSpec : String) : ℚ × DetailMap :=
  specPhase row detailSpec
    (descOptions.foldl (optStep row)
      (intPaintPhase row intPaint
        (extPaintPhase row extPaint
          (npPhase row (0, [])))))

/-! ### Trend helpers (`utils/helpers.ts` lines 138–160) -/

/-- `getTrend(cur, prev, threshold)`: classify a relative change against a
symmetric threshold (callers always use the default `0.02`). -/
def getTrend (cur prev threshold : ℚ) : String :=
  if prev = 0 then "데이터없음"
  else
    let change := (cur - prev) / prev
    if threshold < change then "상승"
    else if change < -threshold then "하락"
    else "유지"

/-- The 3×3 judgment matrix of `getMarketJudgment`. -/
def judgmentMatrix : List (String × String) :=
  [("유지-유지", "적정"), ("유지-하락", "주의"), ("유지-상승", "양호"),
   ("상승-유지", "주의"), ("상승-하락", "주의"), ("상승-상승", "적정"),
   ("하락-유지", "양호"), ("하락-하락", "주의"), ("하락-상승", "양호")]

/-- `getMarketJudgment(priceTrend, marketTrend)`: object lookup on the
concatenated key with default `판단불가`. -/
def getMarketJudgment (p m : String) : String :=
  ((judgmentMatrix.find? (fun e => e.1 == p ++ "-" ++ m)).map
    (fun e => e.2)).getD "판단불가"

/-! ### Historical performance rows and selection -/

/-- `PerformanceRow` (dataLoader.ts): `자재번호 ↦ matNo`, `내역 ↦ desc`,
`발주업체 ↦ vendor`, `발주일 ↦ orderDate` (timestamp), `발주금액-변환 ↦
orderAmt`, `요청수량 ↦ reqQty`, `Valve Type ↦ valveType`,
`vtype_key ↦ vtypeKey`. -/
structure PerfRow where
  matNo : String
  desc : String
  vendor : String
  orderDate : Int
  orderAmt : ℚ
  reqQty : ℚ
  valveType : String
  vtypeKey : String
  deriving DecidableEq, Repr

/-- The row selected by `pool.sort((a, b) => dateB - dateA)` followed by
`pool[0]`: a stable descending sort places the earliest-listed row of
maximal order date first, which is what this fold returns. -/
def pickLatest : List PerfRow → Option PerfRow
  | [] => none
  | r :: rs =>
    some (rs.foldl (fun best x => if best.orderDate < x.orderDate then x else best) r)

/-- The recurring `unit = row['발주금액-변환'] / (row.요청수량 > 0 ?
row.요청수량 : 1)` computation. -/
def priceUnitOf (r : PerfRow) : ℚ :=
  r.orderAmt / (if 0 < r.reqQty then r.reqQty else 1)

/-! ### Price-table lookup maps (dataLoader.ts lines 130–137, stepA.ts
lines 173–182, stepB.ts lines 92–101) -/

abbrev PriceMap := List (String × List PriceRow)

/-- `Map` bucket insertion: append the row to the bucket of its key,
creating the bucket if absent. -/
def appendAt : PriceMap → String → PriceRow → PriceMap
  | [], k, r => [(k, [r])]
  | e :: rest, k, r =>
    if e.1 == k then (e.1, e.2 ++ [r]) :: rest else e :: appendAt rest k r

/-- `lookup.get(k)`, with a missing or absent bucket read as empty (the
callers immediately test `!rows || rows.length === 0`). -/
def bucketGet (m : PriceMap) (k : String) : List PriceRow :=
  match m.find? (fun e => e.1 == k) with
  | some e => e.2
  | none => []

/-- `priceLookup` of `loadAllData` (dataLoader.ts lines 130–137): buckets
keyed by the price row's `밸브타입`. -/
def buildPriceLookup (tbl : List PriceRow) : PriceMap :=
  tbl.foldl (fun m r => appendAt m r.valveType r) []

/-- `extractTypePrefix` (stepA.ts lines 37–40): the leading run of ASCII
uppercase letters, else the first six characters. -/
def extractTypeHead (v : String) : String :=
  let run := v.toList.takeWhile (fun c => decide ('A' ≤ c) && decide (c ≤ 'Z'))
  if run.isEmpty then String.mk (v.toList.take 6) else String.mk run

/-- `typeOnlyLookup` of `executeStepA1` (stepA.ts lines 173–182): buckets
keyed by `extractTypePrefix`, skipping empty keys. -/
def buildTypeHeadLookup (tbl : List PriceRow) : PriceMap :=
  tbl.foldl
    (fun m r =>
      let p := extractTypeHead r.valveType
      if p ≠ "" then appendAt m p r else m) []

/-- `typeOnlyLookup` of `executeStepB1` (stepB.ts lines 92–101): buckets
keyed by the full `밸브타입`, skipping empty keys. -/
def buildFullTypeLookup (tbl : List PriceRow) : PriceMap :=
  tbl.foldl
    (fun m r => if r.valveType ≠ "" then appendAt m r.valveType r else m) []

/-- The shared two-tier resolution of A1/B1 (stepA.ts lines 207–218,
stepB.ts lines 127–137): primary bucket first, fallback bucket only if
the primary is empty, first row of the found bucket. -/
def resolve2 (m1 m2 : PriceMap) (k1 k2 : String) : Option (String × PriceRow) :=
  match bucketGet m1 k1 with
  | r :: _ => some ("타입+자재내역일치", r)
  | [] =>
    match bucketGet m2 k2 with
    | r :: _ => some ("타입일치", r)
    | [] => none

/-- `vtype.slice(0, -1)`: drop the trailing discriminator character. -/
def dropLastStr (s : String) : String := String.mk s.toList.dropLast

/-! ### Stage A (stepA.ts) -/

/-- `PRItem` (fields used by A1/A2): `자재번호 ↦ matNo`, `내역 ↦ desc`,
`밸브타입 ↦ valveType`, `vtype_key ↦ vtypeKey`, `요청수량 ↦ reqQty`. -/
structure PRItem where
  matNo : String
  desc : String
  valveType : String
  vtypeKey : String
  reqQty : ℚ
  deriving Repr

/-- `StepA1Result` (stepA.ts lines 21–34); the display-only `옵션상세`
string is omitted. -/
structure StepA1Result where
  matNo : String
  desc : String
  valveType : String
  status : String  -- 매핑상태
  tier : String    -- 매핑유형
  body : ℚ         -- 본체가
  opt : ℚ          -- 옵션가
  total : ℚ        -- 합계
  qty : ℚ          -- 수량
  recTotal : ℚ     -- 추천총액
  vendor : String  -- 계약업체
  deriving Repr

/-- One iteration of the `for (const pr of prItems)` loop of
`executeStepA1` (stepA.ts lines 184–240). -/
def stepA1Item (lookup1 lookup2 : PriceMap) (pr : PRItem) : StepA1Result :=
  let vtypeKey := dropLastStr pr.valveType
  let typeHead := extractTypeHead pr.valveType
  let qty := if 0 < pr.reqQty then pr.reqQty else 1
  let descOpts := parseOptionsFromDesc pr.desc
  match resolve2 lookup1 lookup2 vtypeKey typeHead with
  | none => ⟨pr.matNo, pr.desc, pr.valveType, "실패", "-", 0, 0, 0, qty, 0, ""⟩
  | some (tier, pt) =>
    let ptQty := if 0 < pt.qty then pt.qty else 1
    let unitBody2 := pt.body2 / ptQty
    let c := calcOptionPrice pt descOpts "" "" ""
    let unitSum := unitBody2 + c.1
    ⟨pr.matNo, pr.desc, pr.valveType, "성공", tier, roundQ unitBody2,
      roundQ c.1, roundQ unitSum, qty, roundQ (unitSum * qty), pt.vendor⟩

/-- The `results` list of `executeStepA1` (stepA.ts lines 152–263),
parameterised by the loaded PR items and price table. -/
def executeStepA1 (prItems : List PRItem) (tbl : List PriceRow) :
    List StepA1Result :=
  prItems.map (stepA1Item (buildPriceLookup tbl) (buildTypeHeadLookup tbl))

/-- `StepA2Result` (stepA.ts lines 265–275); `실적발주일` is carried as
the timestamp. -/
structure StepA2Result where
  matNo : String
  desc : String
  valveType : String
  tier : String      -- 매핑유형
  vendor : String    -- 실적업체
  orderDate : Int    -- 실적발주일
  qty : ℚ            -- 수량
  recentPrice : ℚ    -- 최근발주가
  targetPrice : ℚ    -- 협상목표가
  deriving Repr

/-- The A2 candidate pool (stepA.ts lines 311–313): same `vtype_key`,
different material id. -/
def a2pool (perf : List PerfRow) (pr : PRItem) : List PerfRow :=
  perf.filter (fun r => r.vtypeKey == pr.vtypeKey && r.matNo != pr.matNo)

/-- The A2 exact-description subset (stepA.ts line 317). -/
def a2exact (perf : List PerfRow) (pr : PRItem) : List PerfRow :=
  (a2pool perf pr).filter (fun r => trimStr r.desc == trimStr pr.desc)

/-- One iteration of the `for (const pr of prItems)` loop of
`executeStepA2` (stepA.ts lines 292–351).  The `none` branches of
`pickLatest` are unreachable (the picked list is non-empty there). -/
def stepA2Item (perf : List PerfRow) (pr : PRItem) : StepA2Result :=
  let qty := if 0 < pr.reqQty then pr.reqQty else 1
  let base : StepA2Result :=
    ⟨pr.matNo, pr.desc, pr.valveType, "미매핑", "", 0, qty, 0, 0⟩
  let fill := fun (tier : String) (top : PerfRow) =>
    let unit := priceUnitOf top
    { base with
        tier := tier, vendor := top.vendor, orderDate := top.orderDate,
        recentPrice := roundQ (unit * qty),
        targetPrice := roundQ (unit * qty * (9/10)) }
  let pool := a2pool perf pr
  if pool.isEmpty then base
  else
    let exact := a2exact perf pr
    if exact.isEmpty then
      match pickLatest pool with
      | some top => fill "유사타입" top
      | none => base
    else
      match pickLatest exact with
      | some top => fill "동일내역" top
      | none => base

/-- The `results` list of `executeStepA2`. -/
def executeStepA2 (prItems : List PRItem) (perf : List PerfRow) :
    List StepA2Result :=
  prItems.map (stepA2Item perf)

/-! ### Stage B (stepB.ts) -/

/-- `VendorQuoteRow` (dataLoader.ts lines 34–50), with `'Valve Type' || ''`
and `vtype_key || ''` resolved to plain strings: `수량 ↦ qty`,
`중량 ↦ weight`, `견적가-변환 ↦ quotePrice`, `내부도장 ↦ intPaint`,
`외부도장 ↦ extPaint`, `상세사양 ↦ detailSpec`, `단가-변환 ↦ qBody`,
`N/P-변환 ↦ qNp`, `외부도장-변환 ↦ qExtCoat`, `내부도장-변환 ↦ qIntCoat`,
`LOCK-변환 ↦ qLock`. -/
structure QuoteRow where
  no : Int
  matNo : String
  desc : String
  valveType : String
  vtypeKey : String
  qty : ℚ
  weight : ℚ
  quotePrice : ℚ
  intPaint : String
  extPaint : String
  detailSpec : String
  qBody : ℚ
  qNp : ℚ
  qExtCoat : ℚ
  qIntCoat : ℚ
  qLock : ℚ
  deriving Repr

/-- `StepB1Result` (stepB.ts lines 48–63); the display-only `차이`/`원인`
strings and the `옵션가(NP)`/`옵션가(OP)` display columns are omitted (no
claim and no later stage reads them). -/
structure StepB1Result where
  no : Int
  matNo : String
  desc : String
  valveType : String
  status : String       -- 매핑상태
  tier : String         -- 매핑유형
  qty : ℚ               -- 수량
  quotePrice : ℚ        -- 견적가
  body : ℚ              -- 본체가
  contractTotal : ℚ     -- 계약총액
  deriving Repr

/-- One iteration of the quote loop of `executeStepB1` (stepB.ts lines
103–242). -/
def stepB1Item (lookup1 lookup2 : PriceMap) (vr : QuoteRow) : StepB1Result :=
  let qty := if 0 < vr.qty then vr.qty else 1
  let descOpts := parseOptionsFromDesc vr.desc
  match resolve2 lookup1 lookup2 vr.vtypeKey vr.valveType with
  | none =>
    ⟨vr.no, vr.matNo, vr.desc, vr.valveType, "실패", "-", qty, vr.quotePrice, 0, 0⟩
  | some (tier, pt) =>
    let bodyTotal := pt.bodyUnit * vr.weight * qty
    let c := calcOptionPrice pt descOpts vr.intPaint vr.extPaint vr.detailSpec
    let contractTotal := bodyTotal + c.1 * qty
    ⟨vr.no, vr.matNo, vr.desc, vr.valveType, "성공", tier, qty, vr.quotePrice,
      roundQ bodyTotal, roundQ contractTotal⟩

/-- The `results` list of `executeStepB1`. -/
def executeStepB1 (quotes : List QuoteRow) (tbl : List PriceRow) :
    List StepB1Result :=
  quotes.map (stepB1Item (buildPriceLookup tbl) (buildFullTypeLookup tbl))

/-- `extractDescKeywords` (stepB.ts lines 313–329): the leading `[A-Z-]+`
run, the first `\d+A` size token and the first `\d+K` pressure token of
the whitespace-normalised description. -/
structure DescKeywords where
  typeK : String
  sizeK : String
  pressK : String
  deriving Repr

/-- Leftmost maximal digit run immediately followed by `suffix` (the
semantics of the regex `/(\d+A)/` resp. `/(\d+K)/`); the accumulator holds
the reversed digit run currently being read. -/
def numTokenAux (suffix : Char) : List Char → List Char → Option (List Char)
  | _, [] => none
  | acc, c :: rest =>
    if c.isDigit then numTokenAux suffix (c :: acc) rest
    else if c = suffix ∧ acc ≠ [] then some (acc.reverse ++ [suffix])
    else numTokenAux suffix [] rest

/-- First `\d+suffix` token of a string, or `""`. -/
def findNumToken (suffix : Char) (s : String) : String :=
  ((numTokenAux suffix [] s.toList).map String.mk).getD ""

def extractDescKeywords (desc : String) : DescKeywords :=
  let n := normSpace desc
  let run := n.toList.takeWhile
    (fun c => (decide ('A' ≤ c) && decide (c ≤ 'Z')) || c == '-')
  ⟨String.mk run, findNumToken 'A' n, findNumToken 'K' n⟩

/-- `StepB2Result` (stepB.ts lines 295–310); `발주일` is carried as the
timestamp (0 when unmatched) and the display-only `차이` string is
omitted. -/
structure StepB2Result where
  no : Int
  matNo : String
  desc : String
  tier : String       -- 매핑유형
  vendor : String     -- 실적업체
  qty : ℚ             -- 수량
  qBody : ℚ           -- 'Body가'
  qIntCoat : ℚ        -- 옵션가(IP)
  qExtCoat : ℚ        -- 옵션가(OP)
  quotePrice : ℚ      -- 견적가
  orderDate : Int     -- 발주일
  recentPrice : ℚ     -- 최근발주가
  targetPrice : ℚ     -- 목표가
  deriving Repr

/-- One iteration of the quote loop of `executeStepB2` (stepB.ts lines
348–458). -/
def stepB2Item (perf : List PerfRow) (vr : QuoteRow) : StepB2Result :=
  let qty := if 0 < vr.qty then vr.qty else 1
  let base : StepB2Result :=
    ⟨vr.no, vr.matNo, vr.desc, "미매핑", "", qty, vr.qBody, vr.qIntCoat,
      vr.qExtCoat, vr.quotePrice, 0, 0, 0⟩
  let fill := fun (tier : String) (top : PerfRow) =>
    let recentPrice := priceUnitOf top * qty
    { base with
        tier := tier, vendor := top.vendor, orderDate := top.orderDate,
        recentPrice := roundQ recentPrice,
        targetPrice := roundQ (recentPrice * (9/10)) }
  if vr.vtypeKey = "" then
    -- description-keyword similarity fallback
    let qk := extractDescKeywords vr.desc
    if qk.typeK ≠ "" ∧ qk.sizeK ≠ "" ∧ qk.pressK ≠ "" then
      let similarPool := perf.filter (fun r =>
        r.desc != "" && r.valveType != "" &&
          (let pk := extractDescKeywords r.desc
           pk.typeK == qk.typeK && pk.sizeK == qk.sizeK && pk.pressK == qk.pressK))
      match pickLatest similarPool with
      | some top => fill "유사타입" top
      | none => base
    else base
  else
    let pool := perf.filter (fun r => r.vtypeKey == vr.vtypeKey)
    if pool.isEmpty then base
    else
      let exact := pool.filter (fun r => trimStr r.desc == trimStr vr.desc)
      if exact.isEmpty then
        match pickLatest pool with
        | some top => fill "유사타입" top
        | none => base
      else
        match pickLatest exact with
        | some top => fill "동일내역" top
        | none => base

/-- The `results` list of `executeStepB2`. -/
def executeStepB2 (quotes : List QuoteRow) (perf : List PerfRow) :
    List StepB2Result :=
  quotes.map (stepB2Item perf)

/-- The fairness-judgment block of `executeStepB3` (stepB.ts lines
826–846): quoted price `est`, negotiation target `r90`, recent order
price `r100`, contract total `cont`. -/
def judgeFairness (est r90 r100 cont : ℚ) : String :=
  if est ≤ 0 then "판단불가"
  else if 0 < r90 ∧ est ≤ r90 then "우수"
  else if (0 < r100 ∧ est ≤ r100) ∨ (0 < cont ∧ est ≤ cont) then "보통"
  else if 0 < r100 ∨ 0 < cont then "부적절"
  else "판단불가"

/-- `new Map(b2Results.map(r => [r.No, r])).get(no)`: entries are set in
order and later entries overwrite earlier ones, so the lookup returns the
last result with the given `No`. -/
def lookupNoLast (l : List StepB2Result) (no : Int) : Option StepB2Result :=
  l.foldl (fun acc r => if r.no == no then some r else acc) none

/-- `StepB3Result` (stepB.ts lines 477–493); the display-only `차이율` and
`AI코멘트` fields are omitted. -/
structure StepB3Result where
  no : Int
  matNo : String
  desc : String
  body : ℚ           -- 'Body가'
  qIntCoat : ℚ       -- 옵션가(IP)
  qExtCoat : ℚ       -- 옵션가(OP)
  quotePrice : ℚ     -- 견적가
  contractPrice : ℚ  -- 계약단가
  orderDate : Int    -- 발주일
  recentPrice : ℚ    -- 최근발주가
  targetPrice : ℚ    -- 협상목표가
  verdict : String   -- 적정성
  vendor : String    -- 실적업체
  deriving Repr

/-- One iteration of the merge loop of `executeStepB3` (stepB.ts lines
806–849). -/
def stepB3Item (b2Results : List StepB2Result) (b1 : StepB1Result) :
    StepB3Result :=
  let b2 := lookupNoLast b2Results b1.no
  let est := b1.quotePrice
  let r90 := (b2.map (fun r => r.targetPrice)).getD 0
  let r100 := (b2.map (fun r => r.recentPrice)).getD 0
  let cont := b1.contractTotal
  ⟨b1.no, b1.matNo, b1.desc, b1.body,
    (b2.map (fun r => r.qIntCoat)).getD 0,
    (b2.map (fun r => r.qExtCoat)).getD 0,
    est, cont,
    (b2.map (fun r => r.orderDate)).getD 0,
    r100, r90,
    judgeFairness est r90 r100 cont,
    (b2.map (fun r => r.vendor)).getD ""⟩

/-- The `results` list of `executeStepB3` (stepB.ts lines 788–866). -/
def executeStepB3 (quotes : List QuoteRow) (tbl : List PriceRow)
    (perf : List PerfRow) : List StepB3Result :=
  (executeStepB1 quotes tbl).map (stepB3Item (executeStepB2 quotes perf))

/-! ### Stage C trend analysis (stepC.ts) -/

/-- One `(year-month, vendor)` aggregate of `getMonthlyVendorPrices`
(the `건수`/`총금액`/`총수량` counters are not read by the trend walk and
are omitted). -/
structure MonthlyVendorPrice where
  ym : String       -- 발주연월
  vendor : String   -- 발주업체
  avgPrice : ℚ      -- 평균단가
  deriving Repr

/-- One blended-index point of `getLMEData`; `bronze` is the
`Math.round(구리 × 0.88 + 주석 × 0.12)` blend. -/
structure LMEData where
  ym : String       -- 연월
  bronze : ℚ        -- Bronze환산
  deriving Repr

/-- The blend `Bronze환산 = Math.round(cu * 0.88 + sn * 0.12)` of
`getLMEData` (stepC.ts lines 44–53). -/
def bronzeOf (cu sn : ℚ) : ℚ := roundQ (cu * (88/100) + sn * (12/100))

/-- `MarketTrendResult` (stepC.ts lines 21–32); the `기간` display string
is omitted. -/
structure MarketTrendResult where
  vendor : String        -- 업체
  prevPrice : ℚ          -- 이전단가
  currPrice : ℚ          -- 현재단가
  priceChangePct : ℚ     -- 단가변동(%)
  priceTrend : String    -- 발주트렌드
  marketTrend : String   -- 시황트렌드
  marketChangePct : ℚ    -- 시황변동(%)
  estPL : ℚ              -- 추정이익/손해액
  verdict : String       -- 적정성
  deriving Repr

/-- `priceChange` of a trend leg (stepC.ts lines 165–167). -/
def priceChangeOf (prev curr : MonthlyVendorPrice) : ℚ :=
  if 0 < prev.avgPrice then
    (curr.avgPrice - prev.avgPrice) / prev.avgPrice * 100
  else 0

/-- `marketChange` of a trend leg (stepC.ts lines 155–163): zero unless
both endpoints have LME data. -/
def marketChangeOf (prevLme currLme : Option LMEData) : ℚ :=
  match prevLme, currLme with
  | some pl, some cl =>
    if 0 < pl.bronze then (cl.bronze - pl.bronze) / pl.bronze * 100 else 0
  | _, _ => 0

/-- `marketTrend` of a trend leg (stepC.ts lines 155–163). -/
def marketTrendOf (prevLme currLme : Option LMEData) : String :=
  match prevLme, currLme with
  | some pl, some cl => getTrend cl.bronze pl.bronze (2/100)
  | _, _ => "데이터없음"

/-- One consecutive-month leg of the trend walk of `executeStepC`
(stepC.ts lines 146–205): the two monthly aggregates and the LME lookup
results for the two months. -/
def trendLeg (prev curr : MonthlyVendorPrice)
    (prevLme currLme : Option LMEData) : MarketTrendResult :=
  let priceTrend := getTrend curr.avgPrice prev.avgPrice (2/100)
  let marketTrend := marketTrendOf prevLme currLme
  let mc := marketChangeOf prevLme currLme
  let pc := priceChangeOf prev curr
  let halfMc := if mc ≠ 0 then mc / 2 else 0
  let estPL : ℚ :=
    if pc ≠ 0 ∧ halfMc ≠ 0 then roundQ (curr.avgPrice * (pc / halfMc))
    else if pc = 0 ∧ mc ≠ 0 then roundQ (curr.avgPrice * (mc / 100))
    else if mc = 0 ∧ pc ≠ 0 then roundQ (curr.avgPrice * (-pc / 100))
    else 0
  ⟨curr.vendor, prev.avgPrice, curr.avgPrice, roundQ (pc * 10) / 10,
    priceTrend, marketTrend, roundQ (mc * 10) / 10, estPL,
    getMarketJudgment priceTrend marketTrend⟩

/-! ## Lemmas about the breakdown dictionary -/

theorem sumD_nil : sumD [] = 0 := rfl

theorem sumD_cons (e : String × ℚ) (d : DetailMap) :
    sumD (e :: d) = e.2 + sumD d := by
  simp [sumD]

theorem sumD_nonneg (d : DetailMap) (h : ∀ p ∈ d, 0 < p.2) : 0 ≤ sumD d := by
  induction d with
  | nil => simp [sumD_nil]
  | cons e rest ih =>
    rw [sumD_cons]
    have he := h e (by simp)
    have := ih (fun p hp => h p (by simp [hp]))
    linarith

theorem sumD_pos (d : DetailMap) (hne : d ≠ []) (h : ∀ p ∈ d, 0 < p.2) :
    0 < sumD d := by
  cases d with
  | nil => exact absurd rfl hne
  | cons e rest =>
    rw [sumD_cons]
    have he := h e (by simp)
    have := sumD_nonneg rest (fun p hp => h p (by simp [hp]))
    linarith

theorem setD_pos_mem (d : DetailMap) (k : String) (v : ℚ)
    (hd : ∀ p ∈ d, 0 < p.2) (hv : 0 < v) : ∀ p ∈ setD d k v, 0 < p.2 := by
  induction d with
  | nil => intro p hp; simp [setD] at hp; simp [hp, hv]
  | cons e rest ih =>
    intro p hp
    rw [setD] at hp
    by_cases hk : (e.1 == k) = true
    · simp [hk] at hp
      rcases hp with hp | hp
      · simp [hp, hv]
      · exact hd p (by simp [hp])
    · simp [hk] at hp
      rcases hp with hp | hp
      · exact hd p (by simp [hp])
      · exact ih (fun q hq => hd q (by simp [hq])) p hp

theorem sumD_setD_le (d : DetailMap) (k : String) (v : ℚ)
    (hd : ∀ p ∈ d, 0 < p.2) : sumD (setD d k v) ≤ sumD d + v := by
  induction d with
  | nil => simp [setD, sumD]
  | cons e rest ih =>
    rw [setD]
    by_cases hk : (e.1 == k) = true
    · rw [if_pos hk, sumD_cons, sumD_cons]
      have he := hd e (by simp)
      linarith
    · rw [if_neg hk, sumD_cons, sumD_cons]
      have := ih (fun q hq => hd q (by simp [hq]))
      linarith

theorem setD_ne_nil (d : DetailMap) (k : String) (v : ℚ) :
    setD d k v ≠ [] := by
  cases d with
  | nil => simp [setD]
  | cons e rest =>
    rw [setD]
    by_cases hk : (e.1 == k) = true <;> simp [hk]

/-- The invariant maintained by every mutation of `calcOptionPrice`:
all recorded amounts are positive, the total dominates their sum, and a
total can only have accumulated once the breakdown is inhabited. -/
def GoodSt (st : ℚ × DetailMap) : Prop :=
  (∀ p ∈ st.2, 0 < p.2) ∧ sumD st.2 ≤ st.1 ∧ (st.2 = [] → st.1 = 0)

theorem addIf_false (label : String) (v : ℚ) (st : ℚ × DetailMap) :
    addIf false label v st = st := rfl

theorem addIf_true (label : String) (v : ℚ) (st : ℚ × DetailMap) :
    addIf true label v st = (st.1 + v, setD st.2 label v) := rfl

theorem goodSt_init : GoodSt (0, []) :=
  ⟨by simp, by simp [sumD_nil], fun _ => rfl⟩

theorem addIf_good {cond : Bool} {label : String} {v : ℚ} {st : ℚ × DetailMap}
    (hv : cond = true → 0 < v) (hst : GoodSt st) :
    GoodSt (addIf cond label v st) := by
  obtain ⟨hpos, hsum, hnil⟩ := hst
  cases cond with
  | false => rw [addIf_false]; exact ⟨hpos, hsum, hnil⟩
  | true =>
    rw [addIf_true]
    refine ⟨setD_pos_mem st.2 label v hpos (hv rfl), ?_, ?_⟩
    · show sumD (setD st.2 label v) ≤ st.1 + v
      have h := sumD_setD_le st.2 label v hpos
      linarith
    · intro h
      exact absurd h (setD_ne_nil st.2 label v)

theorem optStep_good (row : PriceRow) (st : ℚ × DetailMap) (opt : String)
    (hst : GoodSt st) : GoodSt (optStep row st opt) := by
  rw [optStep]
  split
  · refine addIf_good (fun h => ?_) hst
    simp only [Bool.and_eq_true, decide_eq_true_eq] at h
    exact h.1.1
  · split
    · refine addIf_good (fun h => ?_) (addIf_good (fun h => ?_) hst) <;>
        (simp only [Bool.and_eq_true, decide_eq_true_eq] at h; exact h.1)
    · split
      · refine addIf_good (fun h => ?_) hst
        simp only [Bool.and_eq_true, decide_eq_true_eq] at h
        exact h.1
      · split
        · refine addIf_good (fun h => ?_) hst
          simpa using h
        · split
          · refine addIf_good (fun h => ?_) hst
            simpa using h
          · exact hst

theorem foldl_optStep_good (row : PriceRow) (l : List String)
    (st : ℚ × DetailMap) (hst : GoodSt st) :
    GoodSt (l.foldl (optStep row) st) := by
  induction l generalizing st with
  | nil => simpa using hst
  | cons opt rest ih => exact ih _ (optStep_good row st opt hst)

theorem npPhase_good (row : PriceRow) (st : ℚ × DetailMap) (hst : GoodSt st) :
    GoodSt (npPhase row st) :=
  addIf_good (fun h => by simpa using h) hst

theorem extPaintPhase_good (row : PriceRow) (extPaint : String)
    (st : ℚ × DetailMap) (hst : GoodSt st) :
    GoodSt (extPaintPhase row extPaint st) := by
  rw [extPaintPhase]
  split
  · exact addIf_good (fun h => by simpa using h) hst
  · exact hst

theorem intPaintPhase_good (row : PriceRow) (intPaint : String)
    (st : ℚ × DetailMap) (hst : GoodSt st) :
    GoodSt (intPaintPhase row intPaint st) := by
  rw [intPaintPhase]
  split
  · exact addIf_good (fun h => by simpa using h) hst
  · exact hst

theorem specPhase_good (row : PriceRow) (detailSpec : String)
    (st : ℚ × DetailMap) (hst : GoodSt st) :
    GoodSt (specPhase row detailSpec st) := by
  rw [specPhase]
  split
  · split
    · refine addIf_good (fun h => ?_) hst
      simp only [Bool.and_eq_true, decide_eq_true_eq] at h
      exact h.1
    · exact hst
  · exact hst

/-! ## Lemmas for the all-zero option row -/

theorem kwLookup_apply_zero (row : PriceRow) (hlock : row.lock = 0)
    (hind : row.ind = 0) (hlsw : row.lsw = 0) (hext : row.ext = 0)
    (ou : String) (f : PriceRow → ℚ) (h : kwLookup ou = some f) :
    f row = 0 := by
  obtain ⟨e, he, rfl⟩ :
      ∃ e, kwMap.find? (fun e => e.1 == ou) = some e ∧ e.2 = f := by
    cases hfind : kwMap.find? (fun e => e.1 == ou) with
    | none => rw [kwLookup, hfind] at h; exact absurd h (by simp)
    | some e => rw [kwLookup, hfind] at h; exact ⟨e, rfl, by simpa using h⟩
  have hmem := List.mem_of_find?_eq_some he
  simp only [kwMap, List.mem_cons, List.not_mem_nil, or_false] at hmem
  rcases hmem with rfl | rfl | rfl | rfl | rfl | rfl | rfl | rfl | rfl | rfl <;>
    first | exact hlock | exact hind | exact hlsw | exact hext

theorem specFind_apply_zero (row : PriceRow) (h13 : row.disc13 = 0)
    (h14 : row.disc14 = 0) (h16 : row.disc16 = 0)
    (su label : String) (f : PriceRow → ℚ)
    (h : specFind su = some (label, f)) : f row = 0 := by
  obtain ⟨e, he, hef⟩ :
      ∃ e, specMap.find? (fun e => containsS su e.1) = some e ∧
        e.2 = (label, f) := by
    cases hfind : specMap.find? (fun e => containsS su e.1) with
    | none => rw [specFind, hfind] at h; exact absurd h (by simp)
    | some e => rw [specFind, hfind] at h; exact ⟨e, rfl, by simpa using h⟩
  have hmem := List.mem_of_find?_eq_some he
  simp only [specMap, List.mem_cons, List.not_mem_nil, or_false] at hmem
  have hf : e.2.2 = f := by rw [hef]
  rcases hmem with rfl | rfl | rfl | rfl | rfl <;> rw [← hf] <;>
    first | exact h13 | exact h14 | exact h16

theorem optStep_zero (row : PriceRow) (hop : row.op = 0) (hip : row.ip = 0)
    (hlock : row.lock = 0) (hind : row.ind = 0) (hlsw : row.lsw = 0)
    (hext : row.ext = 0) (h16 : row.disc16 = 0)
    (st : ℚ × DetailMap) (opt : String) : optStep row st opt = st := by
  have hipd : decide (0 < row.ip) = false := by simp [hip]
  have hopd : decide (0 < row.op) = false := by simp [hop]
  have h16d : decide (0 < row.disc16) = false := by simp [h16]
  rw [optStep]
  split
  · simp [hipd, addIf]
  · split
    · simp [hipd, hopd, addIf]
    · split
      · simp [hopd, addIf]
      · split
        · next f heq =>
          have hz := kwLookup_apply_zero row hlock hind hlsw hext _ f heq
          simp [addIf, hz]
        · split
          · simp [h16d, addIf]
          · rfl

theorem calcOptionPrice_good (row : PriceRow) (descOptions : List String)
    (intPaint extPaint detailSpec : String) :
    GoodSt (calcOptionPrice row descOptions intPaint extPaint detailSpec) := by
  rw [calcOptionPrice]
  exact specPhase_good _ _ _
    (foldl_optStep_good _ _ _
      (intPaintPhase_good _ _ _
        (extPaintPhase_good _ _ _
          (npPhase_good _ _ goodSt_init))))

theorem npPhase_zero (row : PriceRow) (st : ℚ × DetailMap)
    (hnp : row.np = 0) : npPhase row st = st := by
  have hd : decide (0 < row.np) = false := by simp [hnp]
  simp [npPhase, hd, addIf]

theorem extPaintPhase_zero (row : PriceRow) (extPaint : String)
    (st : ℚ × DetailMap) (hop : row.op = 0) :
    extPaintPhase row extPaint st = st := by
  have hd : decide (0 < row.op) = false := by simp [hop]
  rw [extPaintPhase]
  split
  · simp [addIf, hd]
  · rfl

theorem intPaintPhase_zero (row : PriceRow) (intPaint : String)
    (st : ℚ × DetailMap) (hip : row.ip = 0) :
    intPaintPhase row intPaint st = st := by
  have hd : decide (0 < row.ip) = false := by simp [hip]
  rw [intPaintPhase]
  split
  · simp [addIf, hd]
  · rfl

theorem specPhase_zero (row : PriceRow) (detailSpec : String)
    (st : ℚ × DetailMap) (h13 : row.disc13 = 0) (h14 : row.disc14 = 0)
    (h16 : row.disc16 = 0) : specPhase row detailSpec st = st := by
  rw [specPhase]
  split
  · split
    · next label f heq =>
      have hz := specFind_apply_zero row h13 h14 h16 _ label f heq
      simp [addIf, hz]
    · rfl
  · rfl

theorem foldl_optStep_zero (row : PriceRow) (hop : row.op = 0)
    (hip : row.ip = 0) (hlock : row.lock = 0) (hind : row.ind = 0)
    (hlsw : row.lsw = 0) (hext : row.ext = 0) (h16 : row.disc16 = 0)
    (l : List String) (st : ℚ × DetailMap) :
    l.foldl (optStep row) st = st := by
  induction l generalizing st with
  | nil => rfl
  | cons opt rest ih =>
    rw [List.foldl_cons,
      optStep_zero row hop hip hlock hind hlsw hext h16 st opt, ih]

/-! ## Claim C8 -/

/-- C8: for every price row whose option price fields (nameplate,
outer-coating, inner-coating, lock, indicator, limit-switch, extension and
all disc-material prices) are all zero, `calcOptionPrice` returns total 0
and an empty breakdown, for every option-token list, paint-code pair and
detail-spec string. -/
theorem calcOptionPrice_zero_row (row : PriceRow) (hnp : row.np = 0)
    (hop : row.op = 0) (hip : row.ip = 0) (hlock : row.lock = 0)
    (hind : row.ind = 0) (hlsw : row.lsw = 0) (hext : row.ext = 0)
    (h13 : row.disc13 = 0) (h14 : row.disc14 = 0) (h16 : row.disc16 = 0) :
    ∀ (descOptions : List String) (intPaint extPaint detailSpec : String),
      calcOptionPrice row descOptions intPaint extPaint detailSpec = (0, []) := by
  intro descOptions intPaint extPaint detailSpec
  rw [calcOptionPrice, npPhase_zero row _ hnp,
    extPaintPhase_zero row extPaint _ hop,
    intPaintPhase_zero row intPaint _ hip,
    foldl_optStep_zero row hop hip hlock hind hlsw hext h16,
    specPhase_zero row detailSpec _ h13 h14 h16]

/-- An all-zero option row, as a concrete instance for C8. -/
def zeroRowC8 : PriceRow :=
  ⟨"VGBASW3A0", 1, 0, 0, "", 0, 0, 0, 0, 0, 0, 0, 0, 0, 0⟩

/-- Witness for C8 at a concrete all-zero row and non-trivial inputs. -/
theorem calcOptionPrice_zero_row_witness :
    calcOptionPrice zeroRowC8 ["I/O-P", "LOCK", "RUB-C"] "EP" "EP" "SUS316" =
      (0, []) :=
  calcOptionPrice_zero_row zeroRowC8 rfl rfl rfl rfl rfl rfl rfl rfl rfl rfl
    ["I/O-P", "LOCK", "RUB-C"] "EP" "EP" "SUS316"

/-! ## Claim C10 -/

/-- C10 (amended): for every price row, option-token list, paint codes and
detail spec, every amount recorded in the breakdown is strictly positive,
the total is at least the sum of the breakdown amounts, and the breakdown
is empty exactly when the total is 0.  (The claimed equality of total and
breakdown sum fails when the same trigger fires twice; see the
counterexample.) -/
theorem calcOptionPrice_breakdown_bounds (row : PriceRow)
    (descOptions : List String) (intPaint extPaint detailSpec : String) :
    (∀ p ∈ (calcOptionPrice row descOptions intPaint extPaint detailSpec).2,
        0 < p.2) ∧
    sumD (calcOptionPrice row descOptions intPaint extPaint detailSpec).2 ≤
      (calcOptionPrice row descOptions intPaint extPaint detailSpec).1 ∧
    ((calcOptionPrice row descOptions intPaint extPaint detailSpec).2 = [] ↔
      (calcOptionPrice row descOptions intPaint extPaint detailSpec).1 = 0) := by
  obtain ⟨hpos, hsum, hnil⟩ :=
    calcOptionPrice_good row descOptions intPaint extPaint detailSpec
  refine ⟨hpos, hsum, hnil, ?_⟩
  intro ht
  by_contra hne
  have hgt := sumD_pos _ hne hpos
  rw [ht] at hsum
  linarith

/-- A row with only an inner-coating price, for the C10 counterexample. -/
def rowC10 : PriceRow :=
  ⟨"VGBASW3A0", 1, 0, 0, "", 0, 0, 100, 0, 0, 0, 0, 0, 0, 0⟩

/-- C10 counterexample: with token list `["I/O-P", "I/O-P"]` the total is
incremented twice while the breakdown label `I-P(I/O-P)` is merely
overwritten, so the total (200) differs from the breakdown sum (100). -/
theorem calcOptionPrice_total_ne_sum :
    calcOptionPrice rowC10 ["I/O-P", "I/O-P"] "" "" "" =
      (200, [("I-P(I/O-P)", 100)]) ∧
    sumD [("I-P(I/O-P)", (100 : ℚ))] = 100 ∧
    (calcOptionPrice rowC10 ["I/O-P", "I/O-P"] "" "" "").1 ≠
      sumD (calcOptionPrice rowC10 ["I/O-P", "I/O-P"] "" "" "").2 := by
  have h : calcOptionPrice rowC10 ["I/O-P", "I/O-P"] "" "" "" =
      (200, [("I-P(I/O-P)", 100)]) := by
    simp +decide [calcOptionPrice, specPhase, intPaintPhase, extPaintPhase,
      npPhase, optStep, addIf, setD, hasTruthy, kwLookup, kwMap, specFind,
      specMap, rowC10]
    norm_num
  refine ⟨h, by simp [sumD], ?_⟩
  rw [h]
  simp [sumD]

/-! ## Claim C4 -/

/-- A row with only an inner-coating price, for the C4 failing input. -/
def rowC4 : PriceRow :=
  ⟨"VGBASW3A0", 1, 0, 0, "", 0, 0, 100, 0, 0, 0, 0, 0, 0, 0⟩

/-- C4 (code bug): on a description whose token list contains both
`I/O-P` and `I-T` (and no inner paint code), the inner-coating price is
added twice — once under the label `I-P(I/O-P)` and once under
`I-P(자재내역)` — because the guard of each trigger does not check the
label written by the other, so the total is `2 × ip`, not `ip`. -/
theorem calcOptionPrice_double_counts_inner :
    calcOptionPrice rowC4 ["I/O-P", "I-T"] "" "" "" =
      (2 * rowC4.ip, [("I-P(I/O-P)", rowC4.ip), ("I-P(자재내역)", rowC4.ip)]) ∧
    2 * rowC4.ip ≠ rowC4.ip := by
  constructor
  · show calcOptionPrice rowC4 ["I/O-P", "I-T"] "" "" "" =
      (2 * rowC4.ip, [("I-P(I/O-P)", rowC4.ip), ("I-P(자재내역)", rowC4.ip)])
    simp +decide [calcOptionPrice, specPhase, intPaintPhase, extPaintPhase,
      npPhase, optStep, addIf, setD, hasTruthy, kwLookup, kwMap, specFind,
      specMap, rowC4]
    norm_num
  · show (2 * rowC4.ip : ℚ) ≠ rowC4.ip
    simp [rowC4]

/-! ## Claim C5 -/

/-- The parser as the specification sentence describes it: split on
whitespace, take the first occurrence of the highest-priority marker
(`TR` before `T` before `LR`) and return the tokens after it, with no
requirement that the marker sit at a non-final position.  Second
definition kept deliberately close to the spec's words, for comparison
with `parseOptionsFromDesc`. -/
def markerSplitSpec (s : String) : List String :=
  let parts := splitWs s
  match parts.findIdx? (fun t => t == "TR") with
  | some i => parts.drop (i + 1)
  | none =>
    match parts.findIdx? (fun t => t == "T") with
    | some i => parts.drop (i + 1)
    | none =>
      match parts.findIdx? (fun t => t == "LR") with
      | some i => parts.drop (i + 1)
      | none => []

/-- C5 counterexample: on `"A T B TR"` the first occurrence of the
highest-priority marker `TR` is the final token, so the claimed behaviour
returns `[]`; the code skips the final-position `TR` (its guard
`idx < parts.length - 1`) and falls through to the marker `T`, returning
`["B", "TR"]`. -/
theorem parseOptions_skips_final_marker :
    parseOptionsFromDesc "A T B TR" = ["B", "TR"] ∧
    markerSplitSpec "A T B TR" = [] ∧
    parseOptionsFromDesc "A T B TR" ≠ markerSplitSpec "A T B TR" := by
  refine ⟨by decide, by decide, by decide⟩

theorem tryMarker_none_of (parts : List String) (m : String)
    (h : ¬ ∃ i, parts.findIdx? (fun t => t == m) = some i ∧
        i + 1 < parts.length) :
    tryMarker parts m = none := by
  cases hf : parts.findIdx? (fun t => t == m) with
  | none => simp only [tryMarker, hf]
  | some i =>
    simp only [tryMarker, hf]
    rw [if_neg]
    intro hlt
    exact h ⟨i, hf, hlt⟩

/-- C5 (amended): the parser splits on whitespace and, checking the
markers `TR`, `T`, `LR` in that priority order, returns the tokens after
the first occurrence of the first marker that has at least one token
after it; a marker occurring only as the final token is skipped, and if
no marker occurs with a token after it (in particular if no marker occurs
at all) the result is the empty list. -/
theorem parseOptions_amended (s : String) :
    (∀ i, (splitWs s).findIdx? (fun t => t == "TR") = some i →
        i + 1 < (splitWs s).length →
        parseOptionsFromDesc s = (splitWs s).drop (i + 1))
    ∧ ((¬ ∃ i, (splitWs s).findIdx? (fun t => t == "TR") = some i ∧
          i + 1 < (splitWs s).length) →
        ∀ i, (splitWs s).findIdx? (fun t => t == "T") = some i →
          i + 1 < (splitWs s).length →
          parseOptionsFromDesc s = (splitWs s).drop (i + 1))
    ∧ ((¬ ∃ i, (splitWs s).findIdx? (fun t => t == "TR") = some i ∧
          i + 1 < (splitWs s).length) →
        (¬ ∃ i, (splitWs s).findIdx? (fun t => t == "T") = some i ∧
          i + 1 < (splitWs s).length) →
        ∀ i, (splitWs s).findIdx? (fun t => t == "LR") = some i →
          i + 1 < (splitWs s).length →
          parseOptionsFromDesc s = (splitWs s).drop (i + 1))
    ∧ ((¬ ∃ i, (splitWs s).findIdx? (fun t => t == "TR") = some i ∧
          i + 1 < (splitWs s).length) →
        (¬ ∃ i, (splitWs s).findIdx? (fun t => t == "T") = some i ∧
          i + 1 < (splitWs s).length) →
        (¬ ∃ i, (splitWs s).findIdx? (fun t => t == "LR") = some i ∧
          i + 1 < (splitWs s).length) →
        parseOptionsFromDesc s = []) := by
  refine ⟨?_, ?_, ?_, ?_⟩
  · intro i hf hlt
    have h1 : tryMarker (splitWs s) "TR" = some ((splitWs s).drop (i + 1)) := by
      simp only [tryMarker, hf]
      rw [if_pos hlt]
    simp only [parseOptionsFromDesc, h1]
  · intro hTR i hf hlt
    have h1 := tryMarker_none_of _ _ hTR
    have h2 : tryMarker (splitWs s) "T" = some ((splitWs s).drop (i + 1)) := by
      simp only [tryMarker, hf]
      rw [if_pos hlt]
    simp only [parseOptionsFromDesc, h1, h2]
  · intro hTR hT i hf hlt
    have h1 := tryMarker_none_of _ _ hTR
    have h2 := tryMarker_none_of _ _ hT
    have h3 : tryMarker (splitWs s) "LR" = some ((splitWs s).drop (i + 1)) := by
      simp only [tryMarker, hf]
      rw [if_pos hlt]
    simp only [parseOptionsFromDesc, h1, h2, h3]
  · intro hTR hT hLR
    have h1 := tryMarker_none_of _ _ hTR
    have h2 := tryMarker_none_of _ _ hT
    have h3 := tryMarker_none_of _ _ hLR
    simp only [parseOptionsFromDesc, h1, h2, h3]

/-- Witness for C5 (amended) at `"VALVE TR LOCK IND"`: `TR` first occurs
at index 1 with two tokens after it, and the result is those tokens. -/
theorem parseOptions_amended_witness :
    parseOptionsFromDesc "VALVE TR LOCK IND" =
      (splitWs "VALVE TR LOCK IND").drop 2 ∧
    (splitWs "VALVE TR LOCK IND").drop 2 = ["LOCK", "IND"] :=
  ⟨(parseOptions_amended "VALVE TR LOCK IND").1 1 (by decide) (by decide),
    by decide⟩

/-! ## The fairness classifier: characterization lemmas -/

theorem jf_total (q t r c : ℚ) :
    judgeFairness q t r c = "우수" ∨ judgeFairness q t r c = "보통" ∨
    judgeFairness q t r c = "부적절" ∨ judgeFairness q t r c = "판단불가" := by
  rw [judgeFairness]
  split_ifs <;> simp

theorem jf_excellent_iff (q t r c : ℚ) :
    judgeFairness q t r c = "우수" ↔ 0 < q ∧ 0 < t ∧ q ≤ t := by
  rw [judgeFairness]
  split_ifs with h1 h2 h3 h4 <;> simp_all +decide

theorem jf_acceptable_iff (q t r c : ℚ) :
    judgeFairness q t r c = "보통" ↔
      0 < q ∧ ¬(0 < t ∧ q ≤ t) ∧ ((0 < r ∧ q ≤ r) ∨ (0 < c ∧ q ≤ c)) := by
  rw [judgeFairness]
  split_ifs with h1 h2 h3 h4 <;> simp_all +decide

theorem jf_poor_iff (q t r c : ℚ) :
    judgeFairness q t r c = "부적절" ↔
      0 < q ∧ ¬(0 < t ∧ q ≤ t) ∧ ¬((0 < r ∧ q ≤ r) ∨ (0 < c ∧ q ≤ c)) ∧
        (0 < r ∨ 0 < c) := by
  rw [judgeFairness]
  split_ifs with h1 h2 h3 h4 <;> simp_all +decide

theorem jf_ind_iff (q t r c : ℚ) :
    judgeFairness q t r c = "판단불가" ↔
      q ≤ 0 ∨ (¬(0 < t ∧ q ≤ t) ∧ ¬((0 < r ∧ q ≤ r) ∨ (0 < c ∧ q ≤ c)) ∧
        ¬(0 < r ∨ 0 < c)) := by
  rw [judgeFairness]
  split_ifs with h1 h2 h3 h4 <;> simp_all +decide

/-! ## Claim C1 -/

/-- The fairness decision chain exactly as the specification states it
(spec §4.4): `Q <= 0 → indeterminate`, `T > 0 and T >= Q → excellent`,
`(R > 0 and R >= Q) or (C > 0 and C >= Q) → acceptable`, `R > 0 or C > 0
→ unacceptable`, otherwise indeterminate — first satisfied branch wins.
Second definition kept deliberately close to the spec's words, for
comparison with `judgeFairness`. -/
def fairnessSpec (q t r c : ℚ) : String :=
  if q ≤ 0 then "판단불가"
  else if t > 0 ∧ t ≥ q then "우수"
  else if (r > 0 ∧ r ≥ q) ∨ (c > 0 ∧ c ≥ q) then "보통"
  else if r > 0 ∨ c > 0 then "부적절"
  else "판단불가"

/-- C1: the B-3 fairness classifier is exactly the spec's strict priority
chain over (Q, T, R, C), and in particular for Q = 1000, R = 1000,
T = 900 (any contract total) the verdict is `보통` (acceptable). -/
theorem judgeFairness_matches_spec_chain :
    (∀ q t r c : ℚ, judgeFairness q t r c = fairnessSpec q t r c) ∧
    (∀ c : ℚ, judgeFairness 1000 900 1000 c = "보통") := by
  constructor
  · intro q t r c
    rw [judgeFairness, fairnessSpec]
  · intro c
    rw [judgeFairness]
    norm_num

/-! ## Claim C7 -/

/-- The forward order of the verdict chain
`우수 → 보통 → 부적절` (indeterminate outside the chain). -/
def rankVerdict (v : String) : ℕ :=
  if v = "우수" then 0 else if v = "보통" then 1
  else if v = "부적절" then 2 else 3

/-- C7: the fairness classification is a total function of (Q, T, R, C) —
each verdict holds exactly under its chain condition, so exactly one
verdict results — and holding T, R, C fixed it is monotone in Q along the
chain `우수 → 보통 → 부적절`: for 0 ≤ Q ≤ Q' with both verdicts in the
chain (not `판단불가`), the verdict can only move forward. -/
theorem judgeFairness_total_and_monotone :
    (∀ q t r c : ℚ,
      (judgeFairness q t r c = "우수" ↔ 0 < q ∧ 0 < t ∧ q ≤ t) ∧
      (judgeFairness q t r c = "보통" ↔
        0 < q ∧ ¬(0 < t ∧ q ≤ t) ∧ ((0 < r ∧ q ≤ r) ∨ (0 < c ∧ q ≤ c))) ∧
      (judgeFairness q t r c = "부적절" ↔
        0 < q ∧ ¬(0 < t ∧ q ≤ t) ∧ ¬((0 < r ∧ q ≤ r) ∨ (0 < c ∧ q ≤ c)) ∧
          (0 < r ∨ 0 < c)) ∧
      (judgeFairness q t r c = "판단불가" ↔
        q ≤ 0 ∨ (¬(0 < t ∧ q ≤ t) ∧ ¬((0 < r ∧ q ≤ r) ∨ (0 < c ∧ q ≤ c)) ∧
          ¬(0 < r ∨ 0 < c)))) ∧
    (∀ q q' t r c : ℚ, 0 ≤ q → q ≤ q' →
      judgeFairness q t r c ≠ "판단불가" →
      judgeFairness q' t r c ≠ "판단불가" →
      rankVerdict (judgeFairness q t r c) ≤
        rankVerdict (judgeFairness q' t r c)) := by
  constructor
  · intro q t r c
    exact ⟨jf_excellent_iff q t r c, jf_acceptable_iff q t r c,
      jf_poor_iff q t r c, jf_ind_iff q t r c⟩
  · intro q q' t r c hq hle hne hne'
    have hq0 : 0 < q := by
      by_contra hq0
      push_neg at hq0
      exact hne ((jf_ind_iff q t r c).mpr (Or.inl hq0))
    have hq0' : 0 < q' := lt_of_lt_of_le hq0 hle
    by_cases hE' : 0 < t ∧ q' ≤ t
    · have h2 : judgeFairness q t r c = "우수" :=
        (jf_excellent_iff q t r c).mpr ⟨hq0, hE'.1, le_trans hle hE'.2⟩
      have h1 : judgeFairness q' t r c = "우수" :=
        (jf_excellent_iff q' t r c).mpr ⟨hq0', hE'⟩
      rw [h1, h2]
    · by_cases hA' : (0 < r ∧ q' ≤ r) ∨ (0 < c ∧ q' ≤ c)
      · have hA : (0 < r ∧ q ≤ r) ∨ (0 < c ∧ q ≤ c) :=
          hA'.imp (fun h => ⟨h.1, le_trans hle h.2⟩)
            (fun h => ⟨h.1, le_trans hle h.2⟩)
        have h1 : judgeFairness q' t r c = "보통" :=
          (jf_acceptable_iff q' t r c).mpr ⟨hq0', hE', hA'⟩
        rw [h1]
        by_cases hE : 0 < t ∧ q ≤ t
        · rw [(jf_excellent_iff q t r c).mpr ⟨hq0, hE⟩]
          decide
        · rw [(jf_acceptable_iff q t r c).mpr ⟨hq0, hE, hA⟩]
      · by_cases hU : 0 < r ∨ 0 < c
        · have h1 : judgeFairness q' t r c = "부적절" :=
            (jf_poor_iff q' t r c).mpr ⟨hq0', hE', hA', hU⟩
          rw [h1]
          rcases jf_total q t r c with h2 | h2 | h2 | h2
          · rw [h2]; decide
          · rw [h2]; decide
          · rw [h2]
          · exact absurd h2 hne
        · exact absurd ((jf_ind_iff q' t r c).mpr (Or.inr ⟨hE', hA', hU⟩)) hne'

/-- Witness for C7's monotonicity at Q = 500 (verdict `우수`) and
Q' = 1000 (verdict `보통`) with T = 900, R = 1000, C = 0. -/
theorem judgeFairness_total_and_monotone_witness :
    rankVerdict (judgeFairness 500 900 1000 0) ≤
      rankVerdict (judgeFairness 1000 900 1000 0) :=
  judgeFairness_total_and_monotone.2 500 1000 900 1000 0 (by norm_num)
    (by norm_num)
    (by rw [(jf_excellent_iff 500 900 1000 0).mpr (by norm_num)]; decide)
    (by rw [(jf_acceptable_iff 1000 900 1000 0).mpr (by norm_num)]; decide)

/-! ## Claim C9 -/

/-- C9: per-record processing is total — every stage produces exactly one
result per input record (absence of a match is a result state, not an
exception), and the fairness classifier maps a record with no recent
order price, no negotiation target and no contract total to `판단불가`
(indeterminate) for every quoted price. -/
theorem pipeline_one_result_per_record :
    (∀ (prItems : List PRItem) (tbl : List PriceRow) (perf : List PerfRow)
        (quotes : List QuoteRow),
      (executeStepA1 prItems tbl).length = prItems.length ∧
      (executeStepA2 prItems perf).length = prItems.length ∧
      (executeStepB1 quotes tbl).length = quotes.length ∧
      (executeStepB2 quotes perf).length = quotes.length ∧
      (executeStepB3 quotes tbl perf).length = quotes.length) ∧
    (∀ est : ℚ, judgeFairness est 0 0 0 = "판단불가") := by
  constructor
  · intro prItems tbl perf quotes
    refine ⟨?_, ?_, ?_, ?_, ?_⟩ <;>
      simp [executeStepA1, executeStepA2, executeStepB1, executeStepB2,
        executeStepB3]
  · intro est
    simp [judgeFairness]

/-! ## Lemmas about the price-table lookup maps -/

theorem bucketGet_nil (k : String) : bucketGet [] k = [] := rfl

theorem bucketGet_cons (e : String × List PriceRow) (m : PriceMap)
    (k : String) :
    bucketGet (e :: m) k = if e.1 == k then e.2 else bucketGet m k := by
  simp only [bucketGet, List.find?]
  cases h : e.1 == k <;> simp [h, bucketGet]

theorem bucketGet_appendAt (m : PriceMap) (k' : String) (r : PriceRow)
    (k : String) :
    bucketGet (appendAt m k' r) k =
      bucketGet m k ++ (if k' == k then [r] else []) := by
  induction m with
  | nil =>
    rw [appendAt, bucketGet_nil, bucketGet_cons, bucketGet_nil]
    by_cases h : (k' == k) = true
    · simp [h]
    · simp [h]
  | cons e rest ih =>
    rw [appendAt]
    by_cases he : (e.1 == k') = true
    · rw [if_pos he, bucketGet_cons, bucketGet_cons]
      by_cases hek : (e.1 == k) = true
      · have hk : (k' == k) = true :=
          beq_iff_eq.mpr ((eq_of_beq he) ▸ (eq_of_beq hek))
        rw [if_pos hek, if_pos hek, if_pos hk]
      · have hk : ¬ (k' == k) = true := fun hkk =>
          hek (beq_iff_eq.mpr ((eq_of_beq he).trans (eq_of_beq hkk)))
        rw [if_neg hek, if_neg hek, if_neg hk, List.append_nil]
    · rw [if_neg he, bucketGet_cons, bucketGet_cons]
      by_cases hek : (e.1 == k) = true
      · have hk : ¬ (k' == k) = true := fun hkk =>
          he (beq_iff_eq.mpr ((eq_of_beq hek).trans (eq_of_beq hkk).symm))
        rw [if_pos hek, if_pos hek, if_neg hk, List.append_nil]
      · rw [if_neg hek, if_neg hek, ih]

theorem bucketGet_buildPriceLookup (tbl : List PriceRow) (k : String) :
    bucketGet (buildPriceLookup tbl) k =
      tbl.filter (fun r => r.valveType == k) := by
  suffices h : ∀ m : PriceMap,
      bucketGet (tbl.foldl (fun m r => appendAt m r.valveType r) m) k =
        bucketGet m k ++ tbl.filter (fun r => r.valveType == k) by
    simpa [buildPriceLookup] using h []
  induction tbl with
  | nil => intro m; simp
  | cons r rest ih =>
    intro m
    rw [List.foldl_cons, ih, bucketGet_appendAt, List.filter_cons,
      List.append_assoc]
    by_cases h : (r.valveType == k) = true
    · rw [if_pos h, if_pos h]; rfl
    · rw [if_neg h, if_neg h]; rfl

/-- Bucket contents of a guarded (skip-empty-key) lookup build: the rows
whose key matches, in source order. -/
theorem bucketGet_buildG (f : PriceRow → String) (tbl : List PriceRow)
    (k : String) :
    bucketGet
      (tbl.foldl (fun m r => if f r ≠ "" then appendAt m (f r) r else m) [])
      k =
      tbl.filter (fun r => f r == k && !(f r == "")) := by
  suffices h : ∀ m : PriceMap,
      bucketGet
        (tbl.foldl (fun m r => if f r ≠ "" then appendAt m (f r) r else m) m)
        k =
        bucketGet m k ++ tbl.filter (fun r => f r == k && !(f r == "")) by
    simpa using h []
  induction tbl with
  | nil => intro m; simp
  | cons r rest ih =>
    intro m
    rw [List.foldl_cons, List.filter_cons]
    by_cases hp : f r = ""
    · simp only [hp, ne_eq, not_true_eq_false, if_false]
      rw [ih]
      simp
    · simp only [ne_eq, hp, not_false_eq_true, if_true]
      rw [ih, bucketGet_appendAt, List.append_assoc]
      have hne : (f r == "") = false := beq_eq_false_iff_ne.mpr hp
      by_cases h : (f r == k) = true
      · simp [h, hne]
      · simp [h, hne]

theorem bucketGet_buildTypeHeadLookup (tbl : List PriceRow) (k : String) :
    bucketGet (buildTypeHeadLookup tbl) k =
      tbl.filter (fun r =>
        extractTypeHead r.valveType == k &&
          !(extractTypeHead r.valveType == "")) :=
  bucketGet_buildG (fun r => extractTypeHead r.valveType) tbl k

theorem bucketGet_buildFullTypeLookup (tbl : List PriceRow) (k : String) :
    bucketGet (buildFullTypeLookup tbl) k =
      tbl.filter (fun r => r.valveType == k && !(r.valveType == "")) :=
  bucketGet_buildG (fun r => r.valveType) tbl k

/-! ## Claim C2 -/

/-- C2: in A1/B1 contract-price resolution the primary bucket (rows whose
`밸브타입` equals the target's type+size key, in source order) is
consulted first; only if it is empty is the secondary index (keyed by
type prefix in A1, by full valve type in B1) consulted; if that is also
empty the record is unmatched.  A non-empty bucket always yields its
first row in price-table source order (the buckets are the source-order
filters), and — the resolution being a pure function of the tables — the
same row on every invocation.  The third conjunct: a record is marked
`실패` (unmatched) exactly when both buckets are empty. -/
theorem resolveContractPrice_tiers (tbl : List PriceRow) (vk tp ft : String) :
    (resolve2 (buildPriceLookup tbl) (buildTypeHeadLookup tbl) vk tp =
      match tbl.filter (fun r => r.valveType == vk) with
      | r :: _ => some ("타입+자재내역일치", r)
      | [] =>
        match tbl.filter (fun r =>
            extractTypeHead r.valveType == tp &&
              !(extractTypeHead r.valveType == "")) with
        | r :: _ => some ("타입일치", r)
        | [] => none) ∧
    (resolve2 (buildPriceLookup tbl) (buildFullTypeLookup tbl) vk ft =
      match tbl.filter (fun r => r.valveType == vk) with
      | r :: _ => some ("타입+자재내역일치", r)
      | [] =>
        match tbl.filter (fun r =>
            r.valveType == ft && !(r.valveType == "")) with
        | r :: _ => some ("타입일치", r)
        | [] => none) ∧
    (∀ (lookup1 lookup2 : PriceMap) (pr : PRItem),
      (stepA1Item lookup1 lookup2 pr).status = "실패" ↔
        resolve2 lookup1 lookup2 (dropLastStr pr.valveType)
          (extractTypeHead pr.valveType) = none) := by
  refine ⟨?_, ?_, ?_⟩
  · rw [resolve2, bucketGet_buildPriceLookup, bucketGet_buildTypeHeadLookup]
  · rw [resolve2, bucketGet_buildPriceLookup, bucketGet_buildFullTypeLookup]
  · intro lookup1 lookup2 pr
    cases hres : resolve2 lookup1 lookup2 (dropLastStr pr.valveType)
        (extractTypeHead pr.valveType) with
    | none => simp [stepA1Item, hres]
    | some p => simp +decide [stepA1Item, hres]

/-! ## Lemmas about most-recent-row selection -/

theorem pickFold_spec (rs : List PerfRow) (b : PerfRow) :
    (rs.foldl (fun best x => if best.orderDate < x.orderDate then x else best)
        b = b ∨
      rs.foldl (fun best x => if best.orderDate < x.orderDate then x else best)
        b ∈ rs) ∧
    b.orderDate ≤
      (rs.foldl (fun best x => if best.orderDate < x.orderDate then x else best)
        b).orderDate ∧
    ∀ r ∈ rs, r.orderDate ≤
      (rs.foldl (fun best x => if best.orderDate < x.orderDate then x else best)
        b).orderDate := by
  induction rs generalizing b with
  | nil => simp
  | cons x rest ih =>
    rw [List.foldl_cons]
    obtain ⟨hmem, hb, hall⟩ := ih (if b.orderDate < x.orderDate then x else b)
    refine ⟨?_, ?_, ?_⟩
    · rcases hmem with h | h
      · rw [h]
        by_cases hbx : b.orderDate < x.orderDate
        · rw [if_pos hbx]; exact Or.inr (List.mem_cons_self x rest)
        · rw [if_neg hbx]; exact Or.inl rfl
      · exact Or.inr (List.mem_cons_of_mem x h)
    · refine le_trans ?_ hb
      by_cases hbx : b.orderDate < x.orderDate
      · rw [if_pos hbx]; exact le_of_lt hbx
      · rw [if_neg hbx]
    · intro r hr
      rcases List.mem_cons.mp hr with heq | hr
      · rw [heq]
        refine le_trans ?_ hb
        by_cases hbx : b.orderDate < x.orderDate
        · rw [if_pos hbx]
        · rw [if_neg hbx]; exact le_of_not_lt hbx
      · exact hall r hr

theorem pickLatest_spec (l : List PerfRow) (t : PerfRow)
    (h : pickLatest l = some t) :
    t ∈ l ∧ ∀ r ∈ l, r.orderDate ≤ t.orderDate := by
  cases l with
  | nil => exact absurd h (by simp [pickLatest])
  | cons b rs =>
    rw [pickLatest] at h
    injection h with h
    obtain ⟨hmem, hb, hall⟩ := pickFold_spec rs b
    rw [h] at hmem hb hall
    constructor
    · rcases hmem with h' | h'
      · rw [h']; exact List.mem_cons_self b rs
      · exact List.mem_cons_of_mem b h'
    · intro r hr
      rcases List.mem_cons.mp hr with rfl | hr
      · exact hb
      · exact hall r hr

theorem pickLatest_ne_none (l : List PerfRow) (h : l ≠ []) :
    ∃ t, pickLatest l = some t := by
  cases l with
  | nil => exact absurd rfl h
  | cons b rs => exact ⟨_, rfl⟩

theorem isEmpty_false_of_ne_nil {α : Type} (l : List α) (h : l ≠ []) :
    l.isEmpty = false := by
  cases l with
  | nil => exact absurd rfl h
  | cons a as => rfl

/-! ## Claim C3 -/

/-- C3: in Stage A2, the candidate pool is exactly the historical rows
sharing the item's `vtype_key` with a different material id; if the pool
is empty the item is `미매핑` (unmapped) with zero prices; if the pool has
rows with equal trimmed description, the item is `동일내역` and a
most-recent such row (maximal order date) is selected; otherwise the item
is `유사타입` and a most-recent pool row is selected.  For the selected
row, the recent-order price is `round(unit × qty)` and the negotiation
target `round(unit × qty × 0.9)` with `unit = orderAmount / orderedQty`
(`priceUnitOf`). -/
theorem stepA2_selection (perf : List PerfRow) (pr : PRItem) :
    (∀ r : PerfRow, r ∈ a2pool perf pr ↔
      r ∈ perf ∧ r.vtypeKey = pr.vtypeKey ∧ r.matNo ≠ pr.matNo) ∧
    (a2pool perf pr = [] →
      (stepA2Item perf pr).tier = "미매핑" ∧
      (stepA2Item perf pr).recentPrice = 0 ∧
      (stepA2Item perf pr).targetPrice = 0) ∧
    (a2exact perf pr ≠ [] →
      ∃ top ∈ a2exact perf pr,
        (∀ r ∈ a2exact perf pr, r.orderDate ≤ top.orderDate) ∧
        (stepA2Item perf pr).tier = "동일내역" ∧
        (stepA2Item perf pr).recentPrice =
          roundQ (priceUnitOf top *
            (if 0 < pr.reqQty then pr.reqQty else 1)) ∧
        (stepA2Item perf pr).targetPrice =
          roundQ (priceUnitOf top *
            (if 0 < pr.reqQty then pr.reqQty else 1) * (9/10))) ∧
    (a2pool perf pr ≠ [] → a2exact perf pr = [] →
      ∃ top ∈ a2pool perf pr,
        (∀ r ∈ a2pool perf pr, r.orderDate ≤ top.orderDate) ∧
        (stepA2Item perf pr).tier = "유사타입" ∧
        (stepA2Item perf pr).recentPrice =
          roundQ (priceUnitOf top *
            (if 0 < pr.reqQty then pr.reqQty else 1)) ∧
        (stepA2Item perf pr).targetPrice =
          roundQ (priceUnitOf top *
            (if 0 < pr.reqQty then pr.reqQty else 1) * (9/10))) := by
  refine ⟨?_, ?_, ?_, ?_⟩
  · intro r
    simp [a2pool, List.mem_filter, and_assoc]
  · intro h
    refine ⟨?_, ?_, ?_⟩ <;> simp [stepA2Item, h]
  · intro hne
    have hpool_ne : a2pool perf pr ≠ [] := by
      intro hp
      apply hne
      rw [a2exact, hp]
      rfl
    obtain ⟨top, ht⟩ := pickLatest_ne_none _ hne
    obtain ⟨htmem, htmax⟩ := pickLatest_spec _ _ ht
    refine ⟨top, htmem, htmax, ?_, ?_, ?_⟩ <;>
      simp [stepA2Item, isEmpty_false_of_ne_nil _ hpool_ne,
        isEmpty_false_of_ne_nil _ hne, ht]
  · intro hpool_ne hex
    obtain ⟨top, ht⟩ := pickLatest_ne_none _ hpool_ne
    obtain ⟨htmem, htmax⟩ := pickLatest_spec _ _ ht
    refine ⟨top, htmem, htmax, ?_, ?_, ?_⟩ <;>
      simp [stepA2Item, isEmpty_false_of_ne_nil _ hpool_ne, hex, ht]

/-- Concrete performance rows for the C3 witness. -/
def perfC3 : List PerfRow :=
  [⟨"M1", "D1", "VendorA", 5, 1000, 2, "VGBASW3A0A", "VGBASW3A0"⟩,
   ⟨"M2", "D1", "VendorB", 9, 900, 3, "VGBASW3A0B", "VGBASW3A0"⟩]

/-- Concrete purchase-request item for the C3 witness. -/
def prC3 : PRItem := ⟨"M0", "D1", "VGBASW3A0A", "VGBASW3A0", 2⟩

/-- Witness for C3 at a concrete pool with an exact-description match. -/
theorem stepA2_selection_witness :
    ∃ top ∈ a2exact perfC3 prC3,
      (∀ r ∈ a2exact perfC3 prC3, r.orderDate ≤ top.orderDate) ∧
      (stepA2Item perfC3 prC3).tier = "동일내역" ∧
      (stepA2Item perfC3 prC3).recentPrice =
        roundQ (priceUnitOf top *
          (if 0 < prC3.reqQty then prC3.reqQty else 1)) ∧
      (stepA2Item perfC3 prC3).targetPrice =
        roundQ (priceUnitOf top *
          (if 0 < prC3.reqQty then prC3.reqQty else 1) * (9/10)) :=
  (stepA2_selection perfC3 prC3).2.2.1 (by decide)

/-! ## Claim C6 -/

/-- C6: the gain/loss estimate of a trend leg is exactly the four-case
heuristic — both changes non-zero: current price scaled by
`pc / (mc / 2)`; only the index moved: scaled by `mc / 100`; only the
price moved: scaled by `-pc / 100`; neither: zero (each rounded) — and on
the scenario of two consecutive vendor-months with price flat at 1000 and
the blended index falling 10% (2000 → 1800), the verdict is `주의`
(caution) and the estimate is `-(1000 × 0.10) = -100`. -/
theorem trendLeg_estimate :
    (∀ (prev curr : MonthlyVendorPrice) (o1 o2 : Option LMEData),
      (trendLeg prev curr o1 o2).estPL =
        (if priceChangeOf prev curr ≠ 0 ∧ marketChangeOf o1 o2 ≠ 0 then
          roundQ (curr.avgPrice *
            (priceChangeOf prev curr / (marketChangeOf o1 o2 / 2)))
        else if priceChangeOf prev curr = 0 ∧ marketChangeOf o1 o2 ≠ 0 then
          roundQ (curr.avgPrice * (marketChangeOf o1 o2 / 100))
        else if marketChangeOf o1 o2 = 0 ∧ priceChangeOf prev curr ≠ 0 then
          roundQ (curr.avgPrice * (-priceChangeOf prev curr / 100))
        else 0)) ∧
    (trendLeg ⟨"2025-01", "V", 1000⟩ ⟨"2025-02", "V", 1000⟩
        (some ⟨"2025-01", 2000⟩) (some ⟨"2025-02", 1800⟩)).verdict = "주의" ∧
    (trendLeg ⟨"2025-01", "V", 1000⟩ ⟨"2025-02", "V", 1000⟩
        (some ⟨"2025-01", 2000⟩) (some ⟨"2025-02", 1800⟩)).estPL =
      -(1000 * (10 / 100)) := by
  refine ⟨?_, ?_, ?_⟩
  · intro prev curr o1 o2
    rw [trendLeg]
    by_cases hmc : marketChangeOf o1 o2 = 0
    · simp [hmc]
    · have hhalf : marketChangeOf o1 o2 / 2 ≠ 0 := div_ne_zero hmc two_ne_zero
      simp [hmc, hhalf]
  · have hpt : getTrend (1000 : ℚ) 1000 (2/100) = "유지" := by
      rw [getTrend]
      norm_num
    have hmt : getTrend (1800 : ℚ) 2000 (2/100) = "하락" := by
      rw [getTrend]
      norm_num
    simp only [trendLeg, marketTrendOf, hpt, hmt]
    decide
  · have hpc : priceChangeOf ⟨"2025-01", "V", 1000⟩ ⟨"2025-02", "V", 1000⟩
        = 0 := by
      rw [priceChangeOf]
      norm_num
    have hmc : marketChangeOf (some ⟨"2025-01", 2000⟩)
        (some ⟨"2025-02", 1800⟩) = -10 := by
      rw [marketChangeOf]
      norm_num
    simp only [trendLeg, hpc, hmc]
    norm_num [roundQ, jsRound]

end ValveValid
